import Mathlib

/-!
Shallow embedding of the go-expense-tracker service (olakara/go-expense-tracker).

The repository carries two snapshots of the domain type:
* the base variant (src/domain/expenditure.go): an `Expenditure` has an ID,
  a description, an amount and a date;
* the extended variant (src/unnamed/part_008): additionally a `CategoryId`.
The in-memory store (src/services/memory_service.go) and the HTTP handlers
under src/handlers/ work on the extended variant; the monolithic main.go uses
the base variant.

Modelling conventions:
* `uuid.UUID` (github.com/google/uuid) is modelled by `UUID`, a wrapper
  around `Nat`; `uuid.Nil` is the zero value.  `UUID.str` models the
  canonical rendering `UUID.String()` and `uuidParse` models `uuid.Parse`
  as the partial inverse of that rendering (Go's parser also accepts some
  non-canonical encodings; none of the verified properties depend on that).
* `uuid.New()` draws a fresh random identifier; it is modelled by an
  explicit `freshId` parameter to the constructors.
* `time.Time` is modelled by `Time := Int` (an abstract instant);
  `Time.after` models the strict comparison `Time.After`.  "Current time"
  is an explicit `now` parameter.
* `float64` amounts are modelled by `Rat`: every verified property uses
  only the sign/order comparisons `amount <= 0`, which `Rat` shares with
  the float order on ordinary (non-NaN) values.
* The Go map `map[string]*Expenditure` is modelled by an association list
  `Store`; `mapFind?` is map lookup, `mapInsert` is map assignment and
  `mapErase` is `delete`, all observed through `mapFind?`.
* Errors are a closed inductive `Err` mirroring the sentinel `errors.New`
  values of the domain package.
-/

structure UUID where
  val : Nat
deriving DecidableEq, Repr

/-- `uuid.Nil`, the zero value of `uuid.UUID`. -/
def UUID.nil : UUID := ⟨0⟩

/-- `UUID.String()`: the canonical rendering of an identifier. -/
def UUID.str (u : UUID) : String := toString u.val

/-- `strings.HasPrefix`, on the character-list view of strings. -/
def strHasPre (pre s : String) : Bool := pre.data.isPrefixOf s.data

/-- `strings.TrimPrefix s pre`, on the character-list view of strings. -/
def trimPre (s pre : String) : String :=
  if pre.data.isPrefixOf s.data then ⟨s.data.drop pre.data.length⟩ else s

def charDigit? (c : Char) : Option Nat :=
  if '0' ≤ c ∧ c ≤ '9' then some (c.toNat - '0'.toNat) else none

def parseNatCore : List Char → Nat → Option Nat
  | [], acc => some acc
  | c :: cs, acc =>
      match charDigit? c with
      | some d => parseNatCore cs (10 * acc + d)
      | none => none

/-- Digit-string parsing, accepting exactly the strings `toString` produces
(via the canonicity check in `uuidParse`). -/
def parseNat? (s : String) : Option Nat :=
  match s.data with
  | [] => none
  | cs => parseNatCore cs 0

/-- `uuid.Parse`: partial inverse of the canonical rendering. -/
def uuidParse (s : String) : Option UUID :=
  match parseNat? s with
  | some n => if toString n = s then some ⟨n⟩ else none
  | none => none

abbrev Time := Int

/-- `time.Time.After`: strict "later than". -/
def Time.after (d t : Time) : Bool := decide (t < d)

/-- The sentinel error values of the domain package
(src/domain/expenditure.go, src/domain/repository.go, src/unnamed/part_008). -/
inductive Err where
  | invalidExpenditureAmount
  | expenditureDescriptionEmpty
  | expenditureFutureDate
  | expenditureCategoryIdEmpty
  | expenditureAlreadyExists
  | expenditureNotFound
deriving DecidableEq, Repr

/-- The base-variant record (src/domain/expenditure.go). -/
structure ExpenditureBase where
  ID : UUID
  Description : String
  Amount : Rat
  Date : Time
deriving DecidableEq, Repr

/-- `domain.NewExpenditure` of the base variant (src/domain/expenditure.go,
lines 21-42).  `now` stands for `time.Now()` and `freshId` for `uuid.New()`. -/
def NewExpenditureBase (description : String) (amount : Rat) (date : Time)
    (now : Time) (freshId : UUID) : Except Err ExpenditureBase :=
  if description = "" then .error .expenditureDescriptionEmpty
  else if amount ≤ 0 then .error .invalidExpenditureAmount
  else if Time.after date now then .error .expenditureFutureDate
  else .ok ⟨freshId, description, amount, date⟩

/-- The extended-variant record (src/unnamed/part_008). -/
structure Expenditure where
  ID : UUID
  Description : String
  Amount : Rat
  Date : Time
  CategoryId : UUID
deriving DecidableEq, Repr

/-- `domain.NewExpenditure` of the extended variant (src/unnamed/part_008,
lines 23-49): the category check comes after the three base checks and
rejects exactly the nil UUID. -/
def NewExpenditure (description : String) (amount : Rat) (date : Time)
    (categoryId : UUID) (now : Time) (freshId : UUID) : Except Err Expenditure :=
  if description = "" then .error .expenditureDescriptionEmpty
  else if amount ≤ 0 then .error .invalidExpenditureAmount
  else if Time.after date now then .error .expenditureFutureDate
  else if categoryId = UUID.nil then .error .expenditureCategoryIdEmpty
  else .ok ⟨freshId, description, amount, date, categoryId⟩

/-- The expenditure map of `MemoryService` (src/services/memory_service.go),
as an association list keyed by rendered identifiers. -/
abbrev Store := List (String × Expenditure)

/-- Go map lookup `m.Expenditures[key]`. -/
def mapFind? : Store → String → Option Expenditure
  | [], _ => none
  | (k, v) :: rest, key => if k = key then some v else mapFind? rest key

/-- Go map `delete(m.Expenditures, key)` (observed through `mapFind?`). -/
def mapErase : Store → String → Store
  | [], _ => []
  | (k, v) :: rest, key =>
      if k = key then mapErase rest key else (k, v) :: mapErase rest key

/-- Go map assignment `m.Expenditures[key] = v` (observed through `mapFind?`). -/
def mapInsert (m : Store) (key : String) (v : Expenditure) : Store :=
  (key, v) :: mapErase m key

namespace MemoryService

/-- `MemoryService.AddExpenditure` (src/services/memory_service.go, lines
58-76): reject an already-present identifier, otherwise insert.  The pair
returns the Go error value together with the store after the call. -/
def AddExpenditure (m : Store) (e : Expenditure) : Option Err × Store :=
  if (mapFind? m e.ID.str).isSome then (some .expenditureAlreadyExists, m)
  else (none, mapInsert m e.ID.str e)

/-- `MemoryService.GetExpenditureByID` (src/services/memory_service.go,
lines 78-96). -/
def GetExpenditureByID (m : Store) (id : String) : Except Err Expenditure :=
  match mapFind? m id with
  | none => .error .expenditureNotFound
  | some e => .ok e

/-- `MemoryService.UpdateExpenditure` (src/services/memory_service.go, lines
113-132): not-found on an absent identifier, otherwise full replacement. -/
def UpdateExpenditure (m : Store) (e : Expenditure) : Option Err × Store :=
  if (mapFind? m e.ID.str).isNone then (some .expenditureNotFound, m)
  else (none, mapInsert m e.ID.str e)

/-- `MemoryService.DeleteExpenditure` (src/services/memory_service.go, lines
134-148): not-found on an absent identifier, otherwise removal. -/
def DeleteExpenditure (m : Store) (id : String) : Option Err × Store :=
  if (mapFind? m id).isNone then (some .expenditureNotFound, m)
  else (none, mapErase m id)

end MemoryService

/- Association-list lemmas mirroring the Go map semantics. -/

theorem mapFind?_erase_self (m : Store) (key : String) :
    mapFind? (mapErase m key) key = none := by
  induction m with
  | nil => rfl
  | cons p rest ih =>
      obtain ⟨k, v⟩ := p
      by_cases hk : k = key
      · simpa [mapErase, hk] using ih
      · simpa [mapErase, mapFind?, hk] using ih

theorem mapFind?_erase_other (m : Store) (key other : String)
    (h : other ≠ key) : mapFind? (mapErase m key) other = mapFind? m other := by
  induction m with
  | nil => rfl
  | cons p rest ih =>
      obtain ⟨k, v⟩ := p
      by_cases hk : k = key
      · have hko : k ≠ other := fun hko => h (hko.symm.trans hk)
        rw [mapErase, if_pos hk, ih, mapFind?, if_neg hko]
      · by_cases hko : k = other
        · rw [mapErase, if_neg hk, mapFind?, if_pos hko, mapFind?, if_pos hko]
        · rw [mapErase, if_neg hk, mapFind?, if_neg hko, ih, mapFind?, if_neg hko]

theorem mapFind?_insert_self (m : Store) (key : String) (v : Expenditure) :
    mapFind? (mapInsert m key v) key = some v := by
  simp [mapInsert, mapFind?]

theorem mapFind?_insert_other (m : Store) (key other : String) (v : Expenditure)
    (h : other ≠ key) :
    mapFind? (mapInsert m key v) other = mapFind? m other := by
  have hk : key ≠ other := fun hko => h hko.symm
  simp [mapInsert, mapFind?, hk, mapFind?_erase_other m key other h]

theorem mapFind?_insert (m : Store) (key k : String) (v : Expenditure) :
    mapFind? (mapInsert m key v) k =
      if key = k then some v else mapFind? m k := by
  by_cases h : key = k
  · subst h; simp [mapFind?_insert_self]
  · simp [h, mapFind?_insert_other m key k v (fun hk => h hk.symm)]

/-!
HTTP layer (src/handlers/ and the router of src/unnamed/part_005).

A handler is modelled as a pure function from the request data and the
store state to the written response and the store state after the call.
JSON body decoding is modelled by an `Option ExpenditureRequest` argument:
`none` is a body `json.Decoder.Decode` rejects, `some req` a decoded body.
HTTP methods are the strings the Go code compares against.
-/

/-- `handlers.ExpenditureRequest` (src/handlers/expenditure_request.go). -/
structure ExpenditureRequest where
  Description : String
  Amount : Rat
  Date : Time
  CategoryId : UUID
deriving DecidableEq, Repr

/-- The observable parts of a written HTTP response: status code and body. -/
inductive RespBody where
  | errMsg (e : Err)            -- `http.Error(w, err.Error(), _)`
  | text (s : String)           -- `http.Error(w, literal, _)`
  | expenditureJson (e : Expenditure)
  | empty
deriving DecidableEq, Repr

structure HttpResponse where
  status : Nat
  body : RespBody
deriving DecidableEq, Repr

/-- `strings.TrimPrefix(path, "/expenditures/")`, as used by the handlers to
extract the identifier segment. -/
def pathId (path : String) : String := trimPre path "/expenditures/"

/-- `ExpenditureHandler.AddExpenditure` (src/handlers/add_expenditure.go),
instantiated with the in-memory service.  The code carries a
`TODO: Need to check if category exists` and consults no category store:
the decoded category id goes straight into `domain.NewExpenditure`. -/
def AddExpenditureHandler (method : String) (body : Option ExpenditureRequest)
    (now : Time) (freshId : UUID) (store : Store) : HttpResponse × Store :=
  if method ≠ "POST" then (⟨405, .text "Method not allowed"⟩, store)
  else match body with
  | none => (⟨400, .text "Invalid request body"⟩, store)
  | some req =>
    match NewExpenditure req.Description req.Amount req.Date req.CategoryId now freshId with
    | .error e => (⟨400, .errMsg e⟩, store)
    | .ok exp =>
      match MemoryService.AddExpenditure store exp with
      | (some e, store2) => (⟨500, .errMsg e⟩, store2)
      | (none, store2) => (⟨201, .expenditureJson exp⟩, store2)

/-- `ExpenditureHandler.UpdateExpenditure` (src/handlers/update_expenditure.go),
instantiated with the in-memory service.  The existence lookup runs before
the body is decoded; the replacement record is a struct literal that omits
`CategoryId`, so that field takes the zero value `uuid.Nil`. -/
def UpdateExpenditureHandler (method : String) (path : String)
    (body : Option ExpenditureRequest) (now : Time) (store : Store) :
    HttpResponse × Store :=
  if method ≠ "PUT" then (⟨405, .text "Method not allowed"⟩, store)
  else
    match MemoryService.GetExpenditureByID store (pathId path) with
    | .error e =>
        if e = .expenditureNotFound then (⟨404, .errMsg e⟩, store)
        else (⟨500, .errMsg e⟩, store)
    | .ok _ =>
      match body with
      | none => (⟨400, .text "Invalid request body"⟩, store)
      | some req =>
        if req.Description = "" then
          (⟨400, .errMsg .expenditureDescriptionEmpty⟩, store)
        else if req.Amount ≤ 0 then
          (⟨400, .errMsg .invalidExpenditureAmount⟩, store)
        else if Time.after req.Date now then
          (⟨400, .errMsg .expenditureFutureDate⟩, store)
        else
          match uuidParse (pathId path) with
          | none => (⟨400, .text "Invalid UUID"⟩, store)
          | some parsedUUID =>
            let exp : Expenditure :=
              { ID := parsedUUID, Description := req.Description,
                Amount := req.Amount, Date := req.Date,
                CategoryId := UUID.nil }
            match MemoryService.UpdateExpenditure store exp with
            | (some e, store2) => (⟨500, .errMsg e⟩, store2)
            | (none, store2) => (⟨200, .expenditureJson exp⟩, store2)

/-- Where the router hands a request, or the response it writes itself. -/
inductive RouteTarget where
  | getAllExpenditures
  | addExpenditure
  | getExpenditureByID
  | updateExpenditure
  | deleteExpenditure
  | methodNotAllowed
  | notFoundPage
deriving DecidableEq, Repr

/-- `ExpenditureRouter` (src/unnamed/part_005, lines 57-89; identically
`expenditureRouter` in src/main.go, lines 231-263): dispatch on exact path
`/expenditures`, then on the path beginning with `/expenditures/`, else 404. -/
def expenditureRouter (method path : String) : RouteTarget :=
  if path = "/expenditures" then
    if method = "GET" then .getAllExpenditures
    else if method = "POST" then .addExpenditure
    else .methodNotAllowed
  else if strHasPre "/expenditures/" path then
    if method = "GET" then .getExpenditureByID
    else if method = "PUT" then .updateExpenditure
    else if method = "DELETE" then .deleteExpenditure
    else .methodNotAllowed
  else .notFoundPage

/-!
Claim theorems.
-/

/-- C1: the expenditure constructor returns the description-empty error on an
empty description; the invalid-amount error when the description is non-empty
and the amount is ≤ 0; the future-date error when additionally the amount is
positive and the date is strictly after `now`; in the extended variant the
category-empty error when all earlier checks pass and the category id is the
nil UUID; and otherwise succeeds with exactly the supplied fields plus the
freshly assigned identifier. -/
theorem newExpenditure_case_analysis (description : String) (amount : Rat)
    (date : Time) (categoryId : UUID) (now : Time) (freshId : UUID) :
    (description = "" →
      NewExpenditureBase description amount date now freshId
          = .error .expenditureDescriptionEmpty ∧
      NewExpenditure description amount date categoryId now freshId
          = .error .expenditureDescriptionEmpty) ∧
    (description ≠ "" → amount ≤ 0 →
      NewExpenditureBase description amount date now freshId
          = .error .invalidExpenditureAmount ∧
      NewExpenditure description amount date categoryId now freshId
          = .error .invalidExpenditureAmount) ∧
    (description ≠ "" → 0 < amount → Time.after date now = true →
      NewExpenditureBase description amount date now freshId
          = .error .expenditureFutureDate ∧
      NewExpenditure description amount date categoryId now freshId
          = .error .expenditureFutureDate) ∧
    (description ≠ "" → 0 < amount → Time.after date now = false →
      NewExpenditureBase description amount date now freshId
          = .ok ⟨freshId, description, amount, date⟩ ∧
      (categoryId = UUID.nil →
        NewExpenditure description amount date categoryId now freshId
            = .error .expenditureCategoryIdEmpty) ∧
      (categoryId ≠ UUID.nil →
        NewExpenditure description amount date categoryId now freshId
            = .ok ⟨freshId, description, amount, date, categoryId⟩)) := by
  refine ⟨?_, ?_, ?_, ?_⟩
  · intro h
    simp [NewExpenditureBase, NewExpenditure, h]
  · intro hd ha
    simp [NewExpenditureBase, NewExpenditure, hd, ha]
  · intro hd ha hf
    simp [NewExpenditureBase, NewExpenditure, hd, not_le.mpr ha, hf]
  · intro hd ha hf
    refine ⟨?_, ?_, ?_⟩
    · simp [NewExpenditureBase, hd, not_le.mpr ha, hf]
    · intro hc
      simp [NewExpenditure, hd, not_le.mpr ha, hf, hc]
    · intro hc
      simp [NewExpenditure, hd, not_le.mpr ha, hf, hc]

/-- Witness for C1 at concrete inputs: one success of each variant, one
validation failure of each kind. -/
theorem newExpenditure_case_analysis_witness :
    (NewExpenditureBase "Coffee" 7 3 5 ⟨1⟩ = .ok ⟨⟨1⟩, "Coffee", 7, 3⟩ ∧
     NewExpenditure "Coffee" 7 3 ⟨9⟩ 5 ⟨1⟩ = .ok ⟨⟨1⟩, "Coffee", 7, 3, ⟨9⟩⟩) ∧
    NewExpenditure "" 7 3 ⟨9⟩ 5 ⟨1⟩ = .error .expenditureDescriptionEmpty ∧
    NewExpenditure "Coffee" (-5) 3 ⟨9⟩ 5 ⟨1⟩ = .error .invalidExpenditureAmount ∧
    NewExpenditure "Coffee" 7 8 ⟨9⟩ 5 ⟨1⟩ = .error .expenditureFutureDate ∧
    NewExpenditure "Coffee" 7 3 UUID.nil 5 ⟨1⟩ = .error .expenditureCategoryIdEmpty := by
  have hok := (newExpenditure_case_analysis "Coffee" 7 3 ⟨9⟩ 5 ⟨1⟩).2.2.2
    (by decide) (by decide) (by decide)
  have hdesc := ((newExpenditure_case_analysis "" 7 3 ⟨9⟩ 5 ⟨1⟩).1 (by decide)).2
  have hamt := ((newExpenditure_case_analysis "Coffee" (-5) 3 ⟨9⟩ 5 ⟨1⟩).2.1
    (by decide) (by decide)).2
  have hfut := ((newExpenditure_case_analysis "Coffee" 7 8 ⟨9⟩ 5 ⟨1⟩).2.2.1
    (by decide) (by decide) (by decide)).2
  have hcat := ((newExpenditure_case_analysis "Coffee" 7 3 UUID.nil 5 ⟨1⟩).2.2.2
    (by decide) (by decide) (by decide)).2.1 (by decide)
  exact ⟨⟨hok.1, hok.2.2 (by decide)⟩, hdesc, hamt, hfut, hcat⟩

/-- C3: adding a validly constructed expenditure whose identifier is not yet
a key, then fetching by that identifier, succeeds and returns the very record
that was added. -/
theorem add_then_get_roundtrip (description : String) (amount : Rat)
    (date : Time) (categoryId : UUID) (now : Time) (freshId : UUID)
    (store : Store) (e : Expenditure)
    (_hvalid : NewExpenditure description amount date categoryId now freshId = .ok e)
    (habsent : mapFind? store e.ID.str = none) :
    (MemoryService.AddExpenditure store e).1 = none ∧
    MemoryService.GetExpenditureByID (MemoryService.AddExpenditure store e).2
        e.ID.str = .ok e := by
  have hadd : MemoryService.AddExpenditure store e
      = (none, mapInsert store e.ID.str e) := by
    simp [MemoryService.AddExpenditure, habsent]
  rw [hadd]
  exact ⟨rfl, by
    simp [MemoryService.GetExpenditureByID, mapFind?_insert_self]⟩

/-- Witness for C3: a concrete create-then-fetch on the empty store. -/
theorem add_then_get_roundtrip_witness :
    (MemoryService.AddExpenditure [] ⟨⟨1⟩, "Coffee", 7, 3, ⟨9⟩⟩).1 = none ∧
    MemoryService.GetExpenditureByID
        (MemoryService.AddExpenditure [] ⟨⟨1⟩, "Coffee", 7, 3, ⟨9⟩⟩).2 "1"
      = .ok ⟨⟨1⟩, "Coffee", 7, 3, ⟨9⟩⟩ := by
  have h := add_then_get_roundtrip "Coffee" 7 3 ⟨9⟩ 5 ⟨1⟩ []
    ⟨⟨1⟩, "Coffee", 7, 3, ⟨9⟩⟩ rfl rfl
  exact h

/-- C4: updating a record whose identifier is absent returns the not-found
sentinel with the store unchanged; updating a present identifier succeeds,
afterwards get-by-id returns exactly the new record, and every other key's
binding is untouched. -/
theorem updateExpenditure_replace_or_notFound (m : Store) (e : Expenditure) :
    (mapFind? m e.ID.str = none →
      MemoryService.UpdateExpenditure m e = (some .expenditureNotFound, m)) ∧
    (∀ old, mapFind? m e.ID.str = some old →
      (MemoryService.UpdateExpenditure m e).1 = none ∧
      MemoryService.GetExpenditureByID (MemoryService.UpdateExpenditure m e).2
          e.ID.str = .ok e ∧
      ∀ k, k ≠ e.ID.str →
        mapFind? (MemoryService.UpdateExpenditure m e).2 k = mapFind? m k) := by
  constructor
  · intro habsent
    simp [MemoryService.UpdateExpenditure, habsent]
  · intro old hpresent
    have hupd : MemoryService.UpdateExpenditure m e
        = (none, mapInsert m e.ID.str e) := by
      simp [MemoryService.UpdateExpenditure, hpresent]
    rw [hupd]
    refine ⟨rfl, ?_, ?_⟩
    · simp [MemoryService.GetExpenditureByID, mapFind?_insert_self]
    · intro k hk
      exact mapFind?_insert_other m e.ID.str k e hk

/-- Witness for C4: a concrete not-found update on the empty store and a
concrete full replacement. -/
theorem updateExpenditure_replace_or_notFound_witness :
    MemoryService.UpdateExpenditure [] ⟨⟨1⟩, "Tea", 2, 1, ⟨9⟩⟩
        = (some .expenditureNotFound, []) ∧
    (MemoryService.UpdateExpenditure [("1", ⟨⟨1⟩, "Coffee", 7, 3, ⟨9⟩⟩)]
        ⟨⟨1⟩, "Tea", 2, 1, ⟨9⟩⟩).1 = none ∧
    MemoryService.GetExpenditureByID
        (MemoryService.UpdateExpenditure [("1", ⟨⟨1⟩, "Coffee", 7, 3, ⟨9⟩⟩)]
          ⟨⟨1⟩, "Tea", 2, 1, ⟨9⟩⟩).2 "1"
      = .ok ⟨⟨1⟩, "Tea", 2, 1, ⟨9⟩⟩ := by
  have h1 := (updateExpenditure_replace_or_notFound [] ⟨⟨1⟩, "Tea", 2, 1, ⟨9⟩⟩).1 rfl
  have h2 := (updateExpenditure_replace_or_notFound
      [("1", ⟨⟨1⟩, "Coffee", 7, 3, ⟨9⟩⟩)] ⟨⟨1⟩, "Tea", 2, 1, ⟨9⟩⟩).2
      ⟨⟨1⟩, "Coffee", 7, 3, ⟨9⟩⟩ rfl
  exact ⟨h1, h2.1, h2.2.1⟩

/-- C5: deleting an absent identifier returns the not-found sentinel with the
store unchanged; after a successful delete the identifier is absent (so a
second delete returns not-found) and all other bindings are untouched. -/
theorem deleteExpenditure_absent_or_remove (m : Store) (id : String) :
    (mapFind? m id = none →
      MemoryService.DeleteExpenditure m id = (some .expenditureNotFound, m)) ∧
    (∀ e, mapFind? m id = some e →
      (MemoryService.DeleteExpenditure m id).1 = none ∧
      mapFind? (MemoryService.DeleteExpenditure m id).2 id = none ∧
      MemoryService.DeleteExpenditure (MemoryService.DeleteExpenditure m id).2 id
        = (some .expenditureNotFound, (MemoryService.DeleteExpenditure m id).2) ∧
      ∀ k, k ≠ id →
        mapFind? (MemoryService.DeleteExpenditure m id).2 k = mapFind? m k) := by
  constructor
  · intro habsent
    simp [MemoryService.DeleteExpenditure, habsent]
  · intro e hpresent
    have hdel : MemoryService.DeleteExpenditure m id = (none, mapErase m id) := by
      simp [MemoryService.DeleteExpenditure, hpresent]
    rw [hdel]
    refine ⟨rfl, mapFind?_erase_self m id, ?_, ?_⟩
    · simp [MemoryService.DeleteExpenditure, mapFind?_erase_self m id]
    · intro k hk
      exact mapFind?_erase_other m id k hk

/-- Witness for C5: a concrete delete-twice run from a singleton store and a
not-found delete on the empty store. -/
theorem deleteExpenditure_absent_or_remove_witness :
    MemoryService.DeleteExpenditure [] "1" = (some .expenditureNotFound, []) ∧
    (MemoryService.DeleteExpenditure [("1", ⟨⟨1⟩, "Coffee", 7, 3, ⟨9⟩⟩)] "1").1
        = none ∧
    mapFind?
        (MemoryService.DeleteExpenditure [("1", ⟨⟨1⟩, "Coffee", 7, 3, ⟨9⟩⟩)] "1").2
        "1" = none ∧
    MemoryService.DeleteExpenditure
        (MemoryService.DeleteExpenditure [("1", ⟨⟨1⟩, "Coffee", 7, 3, ⟨9⟩⟩)] "1").2
        "1"
      = (some .expenditureNotFound,
         (MemoryService.DeleteExpenditure
            [("1", ⟨⟨1⟩, "Coffee", 7, 3, ⟨9⟩⟩)] "1").2) := by
  have h1 := (deleteExpenditure_absent_or_remove [] "1").1 rfl
  have h2 := (deleteExpenditure_absent_or_remove
      [("1", ⟨⟨1⟩, "Coffee", 7, 3, ⟨9⟩⟩)] "1").2 ⟨⟨1⟩, "Coffee", 7, 3, ⟨9⟩⟩ rfl
  exact ⟨h1, h2.1, h2.2.1, h2.2.2.1⟩

/-- The representation invariant of the in-memory store: every binding's key
is the rendering of the bound record's identifier (the store is keyed by
`expenditure.ID.String()`). -/
def storeKeysOk (m : Store) : Prop :=
  ∀ k e, mapFind? m k = some e → k = e.ID.str

/-- C2: adding a colliding identifier returns the already-exists sentinel
and leaves the store completely unchanged; the key-discipline invariant is
preserved by add, update and delete; and under it every stored identifier is
unique (two bindings sharing an identifier are the same binding). -/
theorem store_identifier_uniqueness (m : Store) (e : Expenditure) (id : String) :
    ((mapFind? m e.ID.str).isSome = true →
      MemoryService.AddExpenditure m e = (some .expenditureAlreadyExists, m)) ∧
    (storeKeysOk m →
      storeKeysOk (MemoryService.AddExpenditure m e).2 ∧
      storeKeysOk (MemoryService.UpdateExpenditure m e).2 ∧
      storeKeysOk (MemoryService.DeleteExpenditure m id).2) ∧
    (storeKeysOk m → ∀ k1 k2 e1 e2, mapFind? m k1 = some e1 →
      mapFind? m k2 = some e2 → e1.ID = e2.ID → k1 = k2 ∧ e1 = e2) := by
  have hins : ∀ (mw : Store), storeKeysOk mw →
      storeKeysOk (mapInsert mw e.ID.str e) := by
    intro mw hok k x hfind
    rw [mapFind?_insert] at hfind
    by_cases hk : e.ID.str = k
    · rw [if_pos hk] at hfind
      cases hfind
      exact hk.symm
    · rw [if_neg hk] at hfind
      exact hok k x hfind
  refine ⟨?_, ?_, ?_⟩
  · intro hsome
    simp [MemoryService.AddExpenditure, hsome]
  · intro hok
    refine ⟨?_, ?_, ?_⟩
    · by_cases hsome : (mapFind? m e.ID.str).isSome
      · simpa [MemoryService.AddExpenditure, hsome] using hok
      · simpa [MemoryService.AddExpenditure, hsome] using hins m hok
    · by_cases hnone : (mapFind? m e.ID.str).isNone
      · simpa [MemoryService.UpdateExpenditure, hnone] using hok
      · simpa [MemoryService.UpdateExpenditure, hnone] using hins m hok
    · by_cases hnone : (mapFind? m id).isNone
      · simpa [MemoryService.DeleteExpenditure, hnone] using hok
      · have : storeKeysOk (mapErase m id) := by
          intro k x hfind
          by_cases hk : k = id
          · rw [hk, mapFind?_erase_self] at hfind
            cases hfind
          · rw [mapFind?_erase_other m id k hk] at hfind
            exact hok k x hfind
        simpa [MemoryService.DeleteExpenditure, hnone] using this
  · intro hok k1 k2 e1 e2 h1 h2 hid
    have hk1 : k1 = e1.ID.str := hok k1 e1 h1
    have hk2 : k2 = e2.ID.str := hok k2 e2 h2
    have hkeq : k1 = k2 := by
      rw [hk1, hk2, hid]
    refine ⟨hkeq, ?_⟩
    rw [hkeq, h2] at h1
    exact (Option.some.inj h1).symm

/-- Witness for C2 on a concrete singleton store: the colliding add is
rejected without change, the invariant is preserved, and uniqueness holds. -/
theorem store_identifier_uniqueness_witness :
    MemoryService.AddExpenditure [("1", ⟨⟨1⟩, "Coffee", 7, 3, ⟨9⟩⟩)]
        ⟨⟨1⟩, "Tea", 2, 1, ⟨9⟩⟩
      = (some .expenditureAlreadyExists, [("1", ⟨⟨1⟩, "Coffee", 7, 3, ⟨9⟩⟩)]) ∧
    storeKeysOk (MemoryService.AddExpenditure
        [("1", ⟨⟨1⟩, "Coffee", 7, 3, ⟨9⟩⟩)] ⟨⟨1⟩, "Tea", 2, 1, ⟨9⟩⟩).2 := by
  have hok : storeKeysOk [("1", ⟨⟨1⟩, "Coffee", 7, 3, ⟨9⟩⟩)] := by
    intro k e hfind
    rw [mapFind?] at hfind
    by_cases hk : "1" = k
    · rw [if_pos hk] at hfind
      cases hfind
      exact hk.symm
    · rw [if_neg hk, mapFind?] at hfind
      cases hfind
  have h := store_identifier_uniqueness [("1", ⟨⟨1⟩, "Coffee", 7, 3, ⟨9⟩⟩)]
    ⟨⟨1⟩, "Tea", 2, 1, ⟨9⟩⟩ "1"
  exact ⟨h.1 rfl, (h.2.1 hok).1⟩

/-- C7: a POST whose decoded body has an empty description, a non-positive
amount, or a date strictly after `now` is answered 400 with the matching
validation error (in the code's check order) and the store is exactly what it
was before the request. -/
theorem addExpenditureHandler_rejects_invalid (req : ExpenditureRequest)
    (now : Time) (freshId : UUID) (store : Store) :
    (req.Description = "" →
      AddExpenditureHandler "POST" (some req) now freshId store
        = (⟨400, .errMsg .expenditureDescriptionEmpty⟩, store)) ∧
    (req.Description ≠ "" → req.Amount ≤ 0 →
      AddExpenditureHandler "POST" (some req) now freshId store
        = (⟨400, .errMsg .invalidExpenditureAmount⟩, store)) ∧
    (req.Description ≠ "" → 0 < req.Amount → Time.after req.Date now = true →
      AddExpenditureHandler "POST" (some req) now freshId store
        = (⟨400, .errMsg .expenditureFutureDate⟩, store)) := by
  refine ⟨?_, ?_, ?_⟩
  · intro hd
    simp [AddExpenditureHandler, NewExpenditure, hd]
  · intro hd ha
    simp [AddExpenditureHandler, NewExpenditure, hd, ha]
  · intro hd ha hf
    simp [AddExpenditureHandler, NewExpenditure, hd, not_le.mpr ha, hf]

/-- Witness for C7: three concrete rejected POSTs against the empty store. -/
theorem addExpenditureHandler_rejects_invalid_witness :
    AddExpenditureHandler "POST" (some ⟨"", 7, 3, ⟨9⟩⟩) 5 ⟨1⟩ []
        = (⟨400, .errMsg .expenditureDescriptionEmpty⟩, []) ∧
    AddExpenditureHandler "POST" (some ⟨"Coffee", -5, 3, ⟨9⟩⟩) 5 ⟨1⟩ []
        = (⟨400, .errMsg .invalidExpenditureAmount⟩, []) ∧
    AddExpenditureHandler "POST" (some ⟨"Coffee", 7, 8, ⟨9⟩⟩) 5 ⟨1⟩ []
        = (⟨400, .errMsg .expenditureFutureDate⟩, []) :=
  ⟨(addExpenditureHandler_rejects_invalid ⟨"", 7, 3, ⟨9⟩⟩ 5 ⟨1⟩ []).1 rfl,
   (addExpenditureHandler_rejects_invalid ⟨"Coffee", -5, 3, ⟨9⟩⟩ 5 ⟨1⟩ []).2.1
     (by decide) (by decide),
   (addExpenditureHandler_rejects_invalid ⟨"Coffee", 7, 8, ⟨9⟩⟩ 5 ⟨1⟩ []).2.2
     (by decide) (by decide) (by decide)⟩

/-- C6 (divergence exhibit): the create handler carries a
`TODO: Need to check if category exists` and consults no category store, so a
request whose category id (here `⟨42⟩`) names no existing category — the
in-memory category store is keyed by identifiers drawn fresh at startup — is
accepted: the handler answers 201 and stores the expenditure, where the claim
and spec require a 400 validation rejection with nothing stored. -/
theorem addExpenditureHandler_skips_category_check :
    AddExpenditureHandler "POST" (some ⟨"Coffee", 7, 3, ⟨42⟩⟩) 5 ⟨1⟩ []
      = (⟨201, .expenditureJson ⟨⟨1⟩, "Coffee", 7, 3, ⟨42⟩⟩⟩,
         [("1", ⟨⟨1⟩, "Coffee", 7, 3, ⟨42⟩⟩)]) := rfl

/-- C8: the router dispatches purely on URL path and method — on the exact
path `/expenditures`, GET goes to list, POST to create, anything else to
method-not-allowed; on any path beginning `/expenditures/`, GET goes to
fetch-by-id, PUT to update, DELETE to delete, anything else to
method-not-allowed; every other path gets the 404 page. -/
theorem expenditureRouter_dispatch (method path : String) :
    expenditureRouter "GET" "/expenditures" = .getAllExpenditures ∧
    expenditureRouter "POST" "/expenditures" = .addExpenditure ∧
    (method ≠ "GET" → method ≠ "POST" →
      expenditureRouter method "/expenditures" = .methodNotAllowed) ∧
    (strHasPre "/expenditures/" path = true →
      expenditureRouter "GET" path = .getExpenditureByID ∧
      expenditureRouter "PUT" path = .updateExpenditure ∧
      expenditureRouter "DELETE" path = .deleteExpenditure ∧
      (method ≠ "GET" → method ≠ "PUT" → method ≠ "DELETE" →
        expenditureRouter method path = .methodNotAllowed)) ∧
    (path ≠ "/expenditures" → strHasPre "/expenditures/" path = false →
      expenditureRouter method path = .notFoundPage) := by
  refine ⟨rfl, rfl, ?_, ?_, ?_⟩
  · intro hg hp
    simp [expenditureRouter, hg, hp]
  · intro hpre
    have hne : path ≠ "/expenditures" := by
      intro hp
      rw [hp] at hpre
      exact absurd hpre (by decide)
    refine ⟨?_, ?_, ?_, ?_⟩
    · simp [expenditureRouter, hne, hpre]
    · simp [expenditureRouter, hne, hpre]
    · simp [expenditureRouter, hne, hpre]
    · intro hg hpu hd
      simp [expenditureRouter, hne, hpre, hg, hpu, hd]
  · intro hne hpre
    simp [expenditureRouter, hne, hpre]

/-- Witness for C8: one concrete request per dispatch group. -/
theorem expenditureRouter_dispatch_witness :
    expenditureRouter "GET" "/expenditures" = .getAllExpenditures ∧
    expenditureRouter "PATCH" "/expenditures" = .methodNotAllowed ∧
    expenditureRouter "PUT" "/expenditures/1" = .updateExpenditure ∧
    expenditureRouter "POST" "/expenditures/1" = .methodNotAllowed ∧
    expenditureRouter "GET" "/categories" = .notFoundPage := by
  have h1 := expenditureRouter_dispatch "PATCH" "/expenditures/1"
  have h2 := expenditureRouter_dispatch "POST" "/expenditures/1"
  have h3 := expenditureRouter_dispatch "GET" "/categories"
  exact ⟨h1.1, h1.2.2.1 (by decide) (by decide),
    (h1.2.2.2.1 (by decide)).2.1,
    (h2.2.2.2.1 (by decide)).2.2.2 (by decide) (by decide) (by decide),
    h3.2.2.2.2 (by decide) (by decide)⟩

/-- C9: whenever a PUT request succeeds (status 200), the record the update
stored has its category reference equal to the nil UUID, whatever category id
the request body carried: the handler's replacement struct literal omits
`CategoryId`, which therefore takes the zero value. -/
theorem updateExpenditureHandler_forces_nil_category (method path : String)
    (body : Option ExpenditureRequest) (now : Time) (store : Store)
    (resp : HttpResponse) (store2 : Store)
    (hrun : UpdateExpenditureHandler method path body now store = (resp, store2))
    (h200 : resp.status = 200) :
    ∃ e, resp.body = .expenditureJson e ∧ e.CategoryId = UUID.nil ∧
      mapFind? store2 e.ID.str = some e := by
  unfold UpdateExpenditureHandler at hrun
  split at hrun
  · injection hrun with h1 h2
    subst h1
    simp at h200
  · split at hrun
    · split at hrun
      · injection hrun with h1 h2
        subst h1
        simp at h200
      · injection hrun with h1 h2
        subst h1
        simp at h200
    · split at hrun
      · injection hrun with h1 h2
        subst h1
        simp at h200
      · split at hrun
        · injection hrun with h1 h2
          subst h1
          simp at h200
        · split at hrun
          · injection hrun with h1 h2
            subst h1
            simp at h200
          · split at hrun
            · injection hrun with h1 h2
              subst h1
              simp at h200
            · split at hrun
              · injection hrun with h1 h2
                subst h1
                simp at h200
              · simp only [] at hrun
                split at hrun
                · injection hrun with h1 h2
                  subst h1
                  simp at h200
                · rename_i req _ _ _ parsedUUID _ hupd
                  injection hrun with h1 h2
                  subst h1
                  subst h2
                  refine ⟨_, rfl, rfl, ?_⟩
                  rw [MemoryService.UpdateExpenditure] at hupd
                  split at hupd
                  · injection hupd with h3 h4
                    cases h3
                  · injection hupd with h3 h4
                    rw [← h4]
                    exact mapFind?_insert_self store _ _

/-- Witness for C9: a concrete PUT carrying category id `⟨5⟩` succeeds, yet
the stored record's category reference is the nil UUID. -/
theorem updateExpenditureHandler_forces_nil_category_witness :
    ∃ e, (RespBody.expenditureJson ⟨⟨1⟩, "Tea", 2, 1, UUID.nil⟩)
        = RespBody.expenditureJson e ∧ e.CategoryId = UUID.nil ∧
      mapFind? [("1", ⟨⟨1⟩, "Tea", 2, 1, UUID.nil⟩)] e.ID.str = some e := by
  have h := updateExpenditureHandler_forces_nil_category "PUT" "/expenditures/1"
    (some ⟨"Tea", 2, 1, ⟨5⟩⟩) 5 [("1", ⟨⟨1⟩, "Coffee", 7, 3, ⟨9⟩⟩)]
    ⟨200, .expenditureJson ⟨⟨1⟩, "Tea", 2, 1, UUID.nil⟩⟩
    [("1", ⟨⟨1⟩, "Tea", 2, 1, UUID.nil⟩)] (by decide) rfl
  exact h

/-- C10: a PUT whose path identifier is not a key of the store is answered
404 with the store unchanged whatever the body is — even an undecodable or
invalid one — because the existence lookup runs before the body is touched;
and no PUT that does not succeed (status other than 200) ever changes the
store. -/
theorem updateExpenditureHandler_notFound_before_decode (path : String)
    (body : Option ExpenditureRequest) (now : Time) (store : Store) :
    (mapFind? store (pathId path) = none →
      UpdateExpenditureHandler "PUT" path body now store
        = (⟨404, .errMsg .expenditureNotFound⟩, store)) ∧
    (∀ method resp store2,
      UpdateExpenditureHandler method path body now store = (resp, store2) →
      resp.status ≠ 200 → store2 = store) := by
  constructor
  · intro habsent
    simp [UpdateExpenditureHandler, MemoryService.GetExpenditureByID, habsent]
  · intro method resp store2 hrun hne
    unfold UpdateExpenditureHandler at hrun
    split at hrun
    · injection hrun with h1 h2
      exact h2.symm
    · split at hrun
      · split at hrun
        · injection hrun with h1 h2
          exact h2.symm
        · injection hrun with h1 h2
          exact h2.symm
      · split at hrun
        · injection hrun with h1 h2
          exact h2.symm
        · split at hrun
          · injection hrun with h1 h2
            exact h2.symm
          · split at hrun
            · injection hrun with h1 h2
              exact h2.symm
            · split at hrun
              · injection hrun with h1 h2
                exact h2.symm
              · split at hrun
                · injection hrun with h1 h2
                  exact h2.symm
                · simp only [] at hrun
                  split at hrun
                  · rename_i hupd
                    injection hrun with h1 h2
                    rw [MemoryService.UpdateExpenditure] at hupd
                    split at hupd
                    · injection hupd with h3 h4
                      rw [← h2, ← h4]
                    · injection hupd with h3 h4
                      cases h3
                  · injection hrun with h1 h2
                    subst h1
                    exact absurd rfl hne

/-- Witness for C10: a concrete PUT on an absent identifier with an
undecodable body is answered 404 with the store intact, and a concrete
rejected request leaves the store intact. -/
theorem updateExpenditureHandler_notFound_before_decode_witness :
    UpdateExpenditureHandler "PUT" "/expenditures/2" none 5
        [("1", ⟨⟨1⟩, "Coffee", 7, 3, ⟨9⟩⟩)]
      = (⟨404, .errMsg .expenditureNotFound⟩,
         [("1", ⟨⟨1⟩, "Coffee", 7, 3, ⟨9⟩⟩)]) ∧
    ([("1", ⟨⟨1⟩, "Coffee", 7, 3, ⟨9⟩⟩)] : Store)
      = [("1", ⟨⟨1⟩, "Coffee", 7, 3, ⟨9⟩⟩)] := by
  have h := updateExpenditureHandler_notFound_before_decode "/expenditures/2"
    none 5 [("1", ⟨⟨1⟩, "Coffee", 7, 3, ⟨9⟩⟩)]
  exact ⟨h.1 (by decide),
    h.2 "GET" ⟨405, .text "Method not allowed"⟩
      [("1", ⟨⟨1⟩, "Coffee", 7, 3, ⟨9⟩⟩)] (by decide) (by decide)⟩
